import Mathlib

/-!
Verification development for a drug-safety dashboard over the openFDA
adverse-event feed (`ds_final_project.py`).

The program fetches raw adverse-event records, normalizes each event's
drug sub-records into flat facts `(date, drug, role)`, and derives
analytical views: a top-10 drug ranking, a per-drug search page with a
role breakdown and a recent-reports table, and a role-distribution view.

This file gives a shallow embedding of that pipeline: raw events and
facts are explicit structures, pandas DataFrame operations are modelled
as list operations (`value_counts` as a stable descending sort of
first-occurrence grouped counts, `sort_values` as a stable sort,
`to_datetime(.., format="%Y%m%d", errors="coerce")` as an optional
calendar-date parser), and the `@st.cache_data` memoization is modelled
as an explicit lookup cache.
-/

namespace OpenFDA

/-- One drug sub-record of a raw event: `medicinalproduct` (the drug name)
and `drugcharacterization` (the role code), either of which may be absent. -/
structure DrugRec where
  medicinalproduct : Option String
  drugcharacterization : Option String
deriving DecidableEq, Repr

/-- A raw adverse-event record from the feed: a receipt-date string
(possibly absent) and a list of drug sub-records (`patient.drug`). -/
structure RawEvent where
  receiptdate : Option String
  drugs : List DrugRec
deriving DecidableEq, Repr

/-- A normalized fact: the row appended by the loaders, with the raw date
string, the trimmed drug name, and the raw role code. -/
structure Fact where
  date : Option String
  drug : String
  role : Option String
deriving DecidableEq, Repr

/-- Python's `str.strip()`: remove leading and trailing whitespace
(character-list implementation, so that concrete instances evaluate). -/
def pyStrip (s : String) : String :=
  ⟨((s.data.dropWhile Char.isWhitespace).reverse.dropWhile Char.isWhitespace).reverse⟩

/-- Python's `str.lower()` on the ASCII drug names the feed carries:
lowercase every character. -/
def pyLower (s : String) : String :=
  ⟨s.data.map Char.toLower⟩

/-- The record-building loop of `load_events`: for each event, for each drug
sub-record, append a row with the raw receipt date, the stripped
`medicinalproduct` (missing name defaults to `""`, as `drug.get(..., "")`),
and the raw `drugcharacterization`. -/
def normRecords (results : List RawEvent) : List Fact :=
  results.flatMap fun ev =>
    ev.drugs.map fun d =>
      { date := ev.receiptdate
        drug := pyStrip (d.medicinalproduct.getD "")
        role := d.drugcharacterization }

/-- The record-building loop of `load_search_events`: same as `normRecords`
but a row is kept only when the stripped name equals the query
case-insensitively (`name.lower() == drug_name.lower()`). -/
def normSearchRecords (drug_name : String) (results : List RawEvent) : List Fact :=
  results.flatMap fun ev =>
    ev.drugs.filterMap fun d =>
      if pyLower (pyStrip (d.medicinalproduct.getD "")) = pyLower drug_name then
        some { date := ev.receiptdate
               drug := pyStrip (d.medicinalproduct.getD "")
               role := d.drugcharacterization }
      else none

/-- An HTTP response as far as the loaders inspect it: a status code and the
decoded `results` payload. -/
structure HttpResponse where
  status : Nat
  results : List RawEvent
deriving Repr

/-- `load_events` transport behavior: `resp.raise_for_status()` raises for any
status in 400..599 (modelled as `Except.error status`); otherwise the payload
is normalized. There is no 404 special case in this loader. -/
def load_events (resp : HttpResponse) : Except Nat (List Fact) :=
  if 400 ≤ resp.status ∧ resp.status < 600 then Except.error resp.status
  else Except.ok (normRecords resp.results)

/-- `load_search_events` transport behavior: a 404 status returns an empty
DataFrame before `raise_for_status()` is reached; any other 4xx/5xx status
raises; otherwise the payload is normalized with the query re-filter. -/
def load_search_events (drug_name : String) (resp : HttpResponse) :
    Except Nat (List Fact) :=
  if resp.status = 404 then Except.ok []
  else if 400 ≤ resp.status ∧ resp.status < 600 then Except.error resp.status
  else Except.ok (normSearchRecords drug_name resp.results)

/-- A calendar date (year, month, day). -/
structure CalDate where
  y : Nat
  m : Nat
  d : Nat
deriving DecidableEq, Repr

/-- Gregorian leap-year test. -/
def isLeap (y : Nat) : Bool :=
  (y % 4 = 0 && y % 100 ≠ 0) || y % 400 = 0

/-- Number of days in a month of a given year. -/
def daysInMonth (y m : Nat) : Nat :=
  if m = 2 then (if isLeap y then 29 else 28)
  else if m = 4 || m = 6 || m = 9 || m = 11 then 30
  else 31

/-- A numeric key that orders `CalDate` chronologically (months and days are
below 100, so this is the lexicographic order on (y, m, d)). -/
def dateKey (dt : CalDate) : Nat :=
  dt.y * 10000 + dt.m * 100 + dt.d

/-- Numeric value of a digit string given as a character list. -/
def digitsToNat (cs : List Char) : Nat :=
  cs.foldl (fun n c => n * 10 + (c.toNat - 48)) 0

/-- `pd.to_datetime(s, format="%Y%m%d", errors="coerce")` on one 8-digit
string: split 4+2+2, require a real calendar date, and require the result to
fit in a nanosecond `Timestamp` (midnight of 1677-09-21 is below
`Timestamp.min`, so the first representable day is 1677-09-22; the last is
2262-04-11). Anything else coerces to `NaT`, modelled as `none`. The feed's
receipt dates are fixed-width 8-digit strings; strings of other lengths are
treated as unparsable here. -/
def parse8 (s : String) : Option CalDate :=
  let cs := s.data
  if cs.length = 8 && cs.all Char.isDigit then
    let y := digitsToNat (cs.take 4)
    let m := digitsToNat ((cs.drop 4).take 2)
    let d := digitsToNat (cs.drop 6)
    if 1 ≤ m && m ≤ 12 && 1 ≤ d && d ≤ daysInMonth y m
        && 16770922 ≤ y * 10000 + m * 100 + d
        && y * 10000 + m * 100 + d ≤ 22620411 then
      some ⟨y, m, d⟩
    else none
  else none

/-- Date coercion of a raw (possibly absent) date cell: `None` and
unparsable strings become `NaT` (`none`). -/
def to_datetime (s : Option String) : Option CalDate :=
  s.bind parse8

/-- A fact whose date survived `pd.to_datetime` + `dropna(subset=["date"])`
on the search page: the parsed calendar date plus the other two columns. -/
structure ParsedFact where
  pdate : CalDate
  drug : String
  role : Option String
deriving DecidableEq, Repr

/-- The search page's date step: parse the date column, then drop rows whose
date coerced to `NaT`. -/
def parsedFacts (facts : List Fact) : List ParsedFact :=
  facts.filterMap fun f =>
    (to_datetime f.date).map fun dt => ⟨dt, f.drug, f.role⟩

/-- The fixed role table used by both the search page and the
role-distribution page. -/
def role_map : List (String × String) :=
  [("1", "Primary suspect"), ("2", "Secondary suspect"), ("3", "Concomitant")]

/-- Python's `astype(str)` on one cell of the role column: a missing value
prints as the string `"None"`. -/
def pyStr (o : Option String) : String :=
  o.getD "None"

/-- `df["role"].astype(str).map(role_map).fillna("Unknown")` on one cell:
look the stringified code up in the fixed table, defaulting to
`"Unknown"`. -/
def roleDesc (o : Option String) : String :=
  (role_map.lookup (pyStr o)).getD "Unknown"

/-- Distinct values of a list in order of first occurrence (the key order a
pandas hash-table grouping produces), with an accumulator of values already
seen. -/
def firstOccsAux [DecidableEq α] (seen : List α) : List α → List α
  | [] => []
  | x :: xs =>
    if x ∈ seen then firstOccsAux seen xs
    else x :: firstOccsAux (x :: seen) xs

/-- Distinct values of a list in order of first occurrence. -/
def firstOccs [DecidableEq α] (xs : List α) : List α :=
  firstOccsAux [] xs

/-- `Series.value_counts()`: one `(value, count)` pair per distinct value,
sorted by count descending; ties keep first-occurrence order (stable sort
over the hash-table's first-occurrence key order). -/
def value_counts [DecidableEq α] (xs : List α) : List (α × Nat) :=
  ((firstOccs xs).map fun v => (v, xs.count v)).insertionSort
    fun a b => b.2 ≤ a.2

/-- `df["drug"].value_counts().nlargest(n)`: the `n` drugs with the highest
counts (`nlargest` with `keep='first'` takes the leading `n` rows of the
descending count order). -/
def top_drugs (facts : List Fact) (n : Nat) : List (String × Nat) :=
  (value_counts (facts.map Fact.drug)).take n

/-- The slice of a pandas DataFrame the Top Drugs page inspects: its column
labels and its rows. `pd.DataFrame(records)` on an empty record list has no
columns at all; on a non-empty one it has the three record keys. -/
structure Frame where
  columns : List String
  data : List Fact
deriving Repr

/-- `pd.DataFrame(records)` for the loaders' record lists. -/
def mkFrame (records : List Fact) : Frame :=
  { columns := if records.isEmpty then [] else ["date", "drug", "role"]
    data := records }

/-- `load_events` payload handling as a DataFrame (the success path). -/
def load_events_frame (results : List RawEvent) : Frame :=
  mkFrame (normRecords results)

/-- What the Top Drugs page renders: the no-data warning, or the top-10
chart. -/
inductive TopView where
  | warning
  | chart (top : List (String × Nat))
deriving DecidableEq, Repr

/-- `page_top_drugs` after loading: warn and return when the frame is empty
or has no `drug` column (so the `df["drug"]` access is never attempted);
otherwise chart the top 10. -/
def page_top_drugs (df : Frame) : TopView :=
  if df.data.isEmpty || !df.columns.contains "drug" then TopView.warning
  else TopView.chart (top_drugs df.data 10)

/-- The search page's role breakdown: `value_counts` of the mapped role
column, computed after the date parse and `dropna`. -/
def role_breakdown (facts : List Fact) : List (String × Nat) :=
  value_counts ((parsedFacts facts).map fun p => roleDesc p.role)

/-- The search page's recent-reports table:
`df.sort_values("date", ascending=False)[["date", "drug", "role_desc"]]`
followed by `.head(20)`. -/
def recent_reports (facts : List Fact) : List (CalDate × String × String) :=
  ((((parsedFacts facts).insertionSort fun a b => dateKey b.pdate ≤ dateKey a.pdate).map
    fun p => (p.pdate, p.drug, roleDesc p.role)).take 20)

/-- The role-distribution page's counts: `value_counts` of the mapped role
column over all loaded facts (no date parsing on this page). -/
def role_distribution (facts : List Fact) : List (String × Nat) :=
  value_counts (facts.map fun f => roleDesc f.role)

/-- Day number of a calendar date (days since 0000-03-01, the standard
era-based civil-calendar formula); used to measure trailing windows in
days. Dates produced by `parse8` have `y ≥ 1677`, so the `Nat`
subtraction in the shifted year is exact. -/
def dayNumber (dt : CalDate) : Nat :=
  let y := if dt.m ≤ 2 then dt.y - 1 else dt.y
  let era := y / 400
  let yoe := y % 400
  let mp := (dt.m + 9) % 12
  let doy := (153 * mp + 2) / 5 + dt.d - 1
  era * 146097 + yoe * 365 + yoe / 4 - yoe / 100 + doy

/-- Modelled from the spec: the Daily Trend survivor filter (§4.4); the
repository's source has no trend page, so this component exists only in the
spec. Keep the facts whose drug matches the target case-insensitively and
whose (non-null) date lies in the trailing window `[now - days, now]`,
where `now` is the current moment as a day number. -/
def trendSurvivors (facts : List Fact) (target : String) (days now : Nat) :
    List ParsedFact :=
  (parsedFacts facts).filter fun p =>
    pyLower p.drug = pyLower target
      && now - days ≤ dayNumber p.pdate && dayNumber p.pdate ≤ now

/-- Modelled from the spec: the Daily Trend aggregator (§4.4), absent from
the source. Group the survivors by calendar date and return the counts
ordered ascending by date (default window `days = 180`). -/
def daily_trend (facts : List Fact) (target : String) (days now : Nat) :
    List (CalDate × Nat) :=
  (value_counts ((trendSurvivors facts target days now).map ParsedFact.pdate)).insertionSort
    fun a b => dateKey a.1 ≤ dateKey b.1

/-- A memo cache: the association list of keys already computed. -/
structure Cache (κ : Type) (α : Type) where
  entries : List (κ × α)
deriving DecidableEq

/-- The `@st.cache_data` memoization protocol for one call: return the
stored value for a known key without running the computation, or run it,
store the result, and report (in the `Bool`) that the computation ran. -/
def getOrCompute [BEq κ] (c : Cache κ α) (k : κ) (compute : Unit → α) :
    α × Cache κ α × Bool :=
  match c.entries.lookup k with
  | some v => (v, c, false)
  | none =>
    let v := compute ()
    (v, ⟨(k, v) :: c.entries⟩, true)

/-! Concrete inputs used by counterexamples and witnesses. -/

/-- One raw event whose single drug sub-record has a whitespace-only name. -/
def evWhite : List RawEvent :=
  [⟨some "20230101", [⟨some "  ", some "1"⟩]⟩]

/-- One raw event with a matching (after stripping) and a whitespace-only
drug sub-record. -/
def evMixed : List RawEvent :=
  [⟨some "20230101", [⟨some " IBUPROFEN ", some "1"⟩, ⟨some "  ", none⟩]⟩]

/-- One fact with an invalid receipt date (day 45) and role code 1. -/
def factsBadDate : List Fact :=
  [⟨some "20230145", "IBUPROFEN", some "1"⟩]

/-- One fact with an invalid date and one with a valid date. -/
def factsMixedDate : List Fact :=
  [⟨some "20230145", "A", some "1"⟩, ⟨some "20230115", "A", some "2"⟩]

/-- Facts exercising the Daily Trend filter: two case-variant matches inside
the window, one match outside the window, one other drug, one null date. -/
def factsTrend : List Fact :=
  [⟨some "20230601", "IBUPROFEN", some "1"⟩,
   ⟨some "20230601", "ibuprofen", some "2"⟩,
   ⟨some "20220101", "IBUPROFEN", none⟩,
   ⟨some "20230601", "ASPIRIN", none⟩,
   ⟨none, "IBUPROFEN", none⟩]

/-- A 404 response. -/
def resp404 : HttpResponse := ⟨404, []⟩

/-- Facts giving a count tie between drugs B (first seen) and A. -/
def factsTie : List Fact :=
  [⟨none, "B", none⟩, ⟨none, "A", none⟩, ⟨none, "A", none⟩, ⟨none, "B", none⟩]

/-- A cache holding key 1, used to exercise the memoization contract. -/
def cacheOne : Cache Nat (List Fact) := ⟨[(1, [⟨none, "A", none⟩])]⟩

/-- A first computation for the cache examples. -/
def computeB : Unit → List Fact := fun _ => [⟨none, "B", none⟩]

/-- A second, different computation for the cache examples (the second call
must not run it). -/
def computeC : Unit → List Fact := fun _ => [⟨none, "C", none⟩]

/-- Facts containing only role codes 1 and 3. -/
def factsRoles13 : List Fact :=
  [⟨none, "X", some "1"⟩, ⟨none, "Y", some "3"⟩]

/-- Two dated facts for the recent-reports table. -/
def factsTwoDates : List Fact :=
  [⟨some "20230101", "A", some "1"⟩, ⟨some "20230105", "B", none⟩]

/-- A non-empty frame that lacks a `drug` column. -/
def frameNoDrug : Frame := ⟨["date", "role"], [⟨none, "A", none⟩]⟩

/-! Supporting lemmas about first-occurrence grouping and stable sorting. -/

theorem mem_firstOccsAux [DecidableEq α] {a : α} (xs : List α) :
    ∀ seen, a ∈ firstOccsAux seen xs ↔ a ∈ xs ∧ a ∉ seen := by
  induction xs with
  | nil => intro seen; simp [firstOccsAux]
  | cons x xs ih =>
    intro seen
    rw [firstOccsAux]
    split
    · rename_i hx
      rw [ih seen, List.mem_cons]
      constructor
      · rintro ⟨h1, h2⟩; exact ⟨Or.inr h1, h2⟩
      · rintro ⟨h1 | h1, h2⟩
        · exact absurd (h1 ▸ hx) h2
        · exact ⟨h1, h2⟩
    · rename_i hx
      simp only [List.mem_cons, ih (x :: seen)]
      by_cases hax : a = x
      · subst hax; tauto
      · tauto

theorem nodup_firstOccsAux [DecidableEq α] (xs : List α) :
    ∀ seen, (firstOccsAux seen xs).Nodup := by
  induction xs with
  | nil => intro seen; simp [firstOccsAux]
  | cons x xs ih =>
    intro seen
    rw [firstOccsAux]
    split
    · exact ih seen
    · refine List.nodup_cons.mpr ⟨fun hmem => ?_, ih (x :: seen)⟩
      exact ((mem_firstOccsAux xs (x :: seen)).mp hmem).2 (List.mem_cons_self x seen)

theorem firstOccsAux_order [DecidableEq α] {a b : α} (xs : List α) :
    ∀ seen, List.Sublist [a, b] (firstOccsAux seen xs) → xs.indexOf a < xs.indexOf b := by
  induction xs with
  | nil =>
    intro seen h
    rw [firstOccsAux] at h
    simp at h
  | cons x xs ih =>
    intro seen h
    rw [firstOccsAux] at h
    split at h
    · rename_i hx
      have ha : a ∈ firstOccsAux seen xs := h.subset (by simp)
      have hb : b ∈ firstOccsAux seen xs := h.subset (by simp)
      have hax : x ≠ a := fun e => ((mem_firstOccsAux xs seen).mp ha).2 (e ▸ hx)
      have hbx : x ≠ b := fun e => ((mem_firstOccsAux xs seen).mp hb).2 (e ▸ hx)
      rw [List.indexOf_cons_ne _ hax, List.indexOf_cons_ne _ hbx]
      exact Nat.succ_lt_succ (ih seen h)
    · rename_i hx
      cases h with
      | cons _ h1 =>
        have ha : a ∈ firstOccsAux (x :: seen) xs := h1.subset (by simp)
        have hb : b ∈ firstOccsAux (x :: seen) xs := h1.subset (by simp)
        have hax : x ≠ a := fun e =>
          ((mem_firstOccsAux xs (x :: seen)).mp ha).2 (e ▸ List.mem_cons_self x seen)
        have hbx : x ≠ b := fun e =>
          ((mem_firstOccsAux xs (x :: seen)).mp hb).2 (e ▸ List.mem_cons_self x seen)
        rw [List.indexOf_cons_ne _ hax, List.indexOf_cons_ne _ hbx]
        exact Nat.succ_lt_succ (ih (x :: seen) h1)
      | cons₂ _ h1 =>
        have hb : b ∈ firstOccsAux (a :: seen) xs := h1.subset (by simp)
        have hba : a ≠ b := fun e =>
          ((mem_firstOccsAux xs (a :: seen)).mp hb).2 (e ▸ List.mem_cons_self a seen)
        rw [List.indexOf_cons_self, List.indexOf_cons_ne _ hba]
        exact Nat.succ_pos _

theorem nodup_pair_sublist [DecidableEq α] {u v : α} :
    ∀ {l : List α}, l.Nodup → List.Sublist [u, v] l → l.indexOf u < l.indexOf v := by
  intro l
  induction l with
  | nil => intro _ h; simp at h
  | cons x l ih =>
    intro hnd h
    cases h with
    | cons _ h1 =>
      have hu : u ∈ l := h1.subset (by simp)
      have hv : v ∈ l := h1.subset (by simp)
      have hx : x ∉ l := (List.nodup_cons.mp hnd).1
      have hxu : x ≠ u := fun e => hx (e ▸ hu)
      have hxv : x ≠ v := fun e => hx (e ▸ hv)
      rw [List.indexOf_cons_ne _ hxu, List.indexOf_cons_ne _ hxv]
      exact Nat.succ_lt_succ (ih (List.nodup_cons.mp hnd).2 h1)
    | cons₂ _ h1 =>
      have hv : v ∈ l := h1.subset (by simp)
      have hx : u ∉ l := (List.nodup_cons.mp hnd).1
      have huv : u ≠ v := fun e => hx (e ▸ hv)
      rw [List.indexOf_cons_self, List.indexOf_cons_ne _ huv]
      exact Nat.succ_pos _

theorem pair_sublist_of_mem {u v : α} (hne : u ≠ v) :
    ∀ {l : List α}, u ∈ l → v ∈ l → List.Sublist [u, v] l ∨ List.Sublist [v, u] l := by
  intro l
  induction l with
  | nil => intro h; cases h
  | cons x l ih =>
    intro hu hv
    rcases List.mem_cons.mp hu with rfl | hu1
    · have hv1 : v ∈ l := by
        rcases List.mem_cons.mp hv with h | h
        · exact absurd h.symm hne
        · exact h
      exact Or.inl ((List.singleton_sublist.mpr hv1).cons₂ u)
    · rcases List.mem_cons.mp hv with rfl | hv1
      · exact Or.inr ((List.singleton_sublist.mpr hu1).cons₂ v)
      · rcases ih hu1 hv1 with h | h
        · exact Or.inl (h.cons x)
        · exact Or.inr (h.cons x)

/-! Facts about `value_counts`. -/

theorem value_counts_perm [DecidableEq α] (xs : List α) :
    List.Perm (value_counts xs) ((firstOccs xs).map fun v => (v, xs.count v)) :=
  List.perm_insertionSort _ _

theorem mem_value_counts [DecidableEq α] {xs : List α} {p : α × Nat}
    (hp : p ∈ value_counts xs) : p.2 = xs.count p.1 ∧ p.1 ∈ xs := by
  have hp1 : p ∈ (firstOccs xs).map fun v => (v, xs.count v) :=
    (value_counts_perm xs).subset hp
  obtain ⟨v, hv, he⟩ := List.mem_map.mp hp1
  cases he
  exact ⟨rfl, ((mem_firstOccsAux xs []).mp hv).1⟩

theorem mem_keys_value_counts [DecidableEq α] {xs : List α} {a : α} :
    a ∈ (value_counts xs).map Prod.fst ↔ a ∈ xs := by
  rw [List.mem_map]
  constructor
  · rintro ⟨p, hp, rfl⟩
    exact (mem_value_counts hp).2
  · intro ha
    refine ⟨(a, xs.count a), ?_, rfl⟩
    rw [(value_counts_perm xs).mem_iff]
    exact List.mem_map.mpr ⟨a, (mem_firstOccsAux xs []).mpr ⟨ha, by simp⟩, rfl⟩

theorem value_counts_sorted [DecidableEq α] (xs : List α) :
    (value_counts xs).Pairwise fun a b => b.2 ≤ a.2 := by
  haveI : IsTotal (α × Nat) (fun a b => b.2 ≤ a.2) := ⟨fun a b => Nat.le_total b.2 a.2⟩
  haveI : IsTrans (α × Nat) (fun a b => b.2 ≤ a.2) :=
    ⟨fun _ _ _ h1 h2 => Nat.le_trans h2 h1⟩
  exact List.sorted_insertionSort _ _

theorem value_counts_nodup [DecidableEq α] (xs : List α) :
    (value_counts xs).Nodup := by
  rw [(value_counts_perm xs).nodup_iff]
  exact (nodup_firstOccsAux xs []).map fun v w h => congrArg Prod.fst h

theorem value_counts_tie [DecidableEq α] (xs : List α) :
    (value_counts xs).Pairwise fun p q =>
      p.2 = q.2 → xs.indexOf p.1 < xs.indexOf q.1 := by
  rw [List.pairwise_iff_forall_sublist]
  intro u v hsub htie
  have hnd : (value_counts xs).Nodup := value_counts_nodup xs
  have hne : u ≠ v := List.pairwise_iff_forall_sublist.mp hnd hsub
  have hub : u ∈ (firstOccs xs).map fun v => (v, xs.count v) :=
    (value_counts_perm xs).subset (hsub.subset (by simp))
  have hvb : v ∈ (firstOccs xs).map fun v => (v, xs.count v) :=
    (value_counts_perm xs).subset (hsub.subset (by simp))
  rcases pair_sublist_of_mem hne hub hvb with h | h
  · rw [List.sublist_map_iff] at h
    obtain ⟨l1, hl1, he⟩ := h
    rcases l1 with _ | ⟨a, _ | ⟨b, _ | ⟨c, l1⟩⟩⟩
    · exact absurd he (by simp)
    · exact absurd he (by simp)
    · obtain ⟨h1, h2⟩ := List.cons_eq_cons.mp he
      obtain ⟨h2, -⟩ := List.cons_eq_cons.mp h2
      rw [h1, h2]
      exact firstOccsAux_order xs [] hl1
    · exact absurd he (by simp)
  · have hle : [v, u].Pairwise fun a b => b.2 ≤ a.2 := by
      simp [List.pairwise_cons, htie.le]
    have hvu : List.Sublist [v, u] (value_counts xs) := by
      haveI : IsTotal (α × Nat) (fun a b => b.2 ≤ a.2) := ⟨fun a b => Nat.le_total b.2 a.2⟩
      haveI : IsTrans (α × Nat) (fun a b => b.2 ≤ a.2) :=
        ⟨fun _ _ _ h1 h2 => Nat.le_trans h2 h1⟩
      exact List.sublist_insertionSort hle h
    have h1 := nodup_pair_sublist hnd hsub
    have h2 := nodup_pair_sublist hnd hvu
    omega

theorem roleDesc_unmapped {s : String} (h1 : s ≠ "1") (h2 : s ≠ "2") (h3 : s ≠ "3") :
    (role_map.lookup s).getD "Unknown" = "Unknown" := by
  have e1 : (s == "1") = false := beq_eq_false_iff_ne.mpr h1
  have e2 : (s == "2") = false := beq_eq_false_iff_ne.mpr h2
  have e3 : (s == "3") = false := beq_eq_false_iff_ne.mpr h3
  simp [role_map, List.lookup, e1, e2, e3]

theorem parsedFacts_roles (facts : List Fact) :
    (parsedFacts facts).map (fun p => roleDesc p.role) =
      (facts.filter fun f => (to_datetime f.date).isSome).map fun f => roleDesc f.role := by
  induction facts with
  | nil => rfl
  | cons f fs ih =>
    simp only [parsedFacts, List.filterMap_cons, List.filter_cons] at ih ⊢
    cases h : to_datetime f.date with
    | none => simpa [h] using ih
    | some dt => simpa [h] using ih

theorem parsedFacts_filter (facts : List Fact) :
    parsedFacts (facts.filter fun f => (to_datetime f.date).isSome) =
      parsedFacts facts := by
  unfold parsedFacts
  rw [List.filterMap_filter]
  congr 1
  funext f
  cases h : to_datetime f.date <;> simp [h]

/-! Claim theorems. -/

/-- C1, counterexample: the claim says both loaders drop drug sub-records
whose stripped name is empty, but `load_events` keeps them — a raw event
whose single sub-record has the whitespace-only name `"  "` yields one
retained fact whose drug is the empty string. -/
theorem c1_empty_name_retained :
    (normRecords evWhite).length = 1
    ∧ (normRecords evWhite).map Fact.drug = [""] := by decide

/-- C1, amended: `load_events` performs no dropping at all — a raw event
with `k` drug sub-records contributes exactly `k` facts, empty stripped
names included; only `load_search_events` (whose callers pass a non-empty
query) drops them, because an empty stripped name can never equal the
non-empty query case-insensitively. -/
theorem c1_normalization_counts (events : List RawEvent) (q : String)
    (hq : pyLower q ≠ "") :
    (normRecords events).length = (events.map fun ev => ev.drugs.length).sum
    ∧ ∀ f ∈ normSearchRecords q events, f.drug ≠ "" := by
  constructor
  · induction events with
    | nil => rfl
    | cons e es ih =>
      simp only [normRecords, List.flatMap_cons, List.length_append,
        List.length_map, List.map_cons, List.sum_cons] at ih ⊢
      omega
  · intro f hf hfd
    obtain ⟨ev, hev, hf2⟩ := List.mem_flatMap.mp hf
    obtain ⟨d, hd, hsome⟩ := List.mem_filterMap.mp hf2
    split at hsome
    · rename_i hcond
      cases Option.some.inj hsome
      rw [show pyStrip (d.medicinalproduct.getD "") =
          ({ date := ev.receiptdate, drug := pyStrip (d.medicinalproduct.getD ""),
             role := d.drugcharacterization } : Fact).drug from rfl, hfd] at hcond
      exact hq (hcond.symm.trans rfl)
    · exact absurd hsome (by simp)

/-- C1, witness for the amended claim at a concrete input: one raw event
with a matching and a whitespace-only sub-record; the normalization count
holds and the surviving search fact has a non-empty drug. -/
theorem c1_normalization_counts_witness :
    (normRecords evMixed).length = (evMixed.map fun ev => ev.drugs.length).sum
    ∧ ({ date := some "20230101", drug := "IBUPROFEN", role := some "1" } : Fact).drug ≠ "" := by
  refine ⟨(c1_normalization_counts evMixed "IBUPROFEN" (by decide)).1, ?_⟩
  exact (c1_normalization_counts evMixed "IBUPROFEN" (by decide)).2 _ (by decide)

/-- C2, counterexample: the claim says a fact with unparsable date is still
counted by the search page's role breakdown, but that page drops null
dates before computing the breakdown — for the single fact with date
`"20230145"` and role code 1 the breakdown is empty, while the standalone
role-distribution page (which never parses dates) does count it. -/
theorem c2_breakdown_drops_null_date :
    to_datetime (some "20230145") = none
    ∧ role_breakdown factsBadDate = []
    ∧ role_distribution factsBadDate = [("Primary suspect", 1)] := by decide

/-- C2, amended: a fact with a missing or unparsable date is excluded from
every view computed on the search page after its `dropna` — the recent
reports table and also that page's role breakdown — while the
role-distribution page retains and counts it. -/
theorem c2_null_date_handling (facts : List Fact) :
    role_breakdown facts
      = role_distribution (facts.filter fun f => (to_datetime f.date).isSome)
    ∧ recent_reports facts
      = recent_reports (facts.filter fun f => (to_datetime f.date).isSome)
    ∧ (∀ f ∈ facts, roleDesc f.role ∈ (role_distribution facts).map Prod.fst)
    ∧ ∀ p ∈ role_distribution facts,
        p.2 = (facts.map fun f => roleDesc f.role).count p.1 := by
  refine ⟨?_, ?_, ?_, ?_⟩
  · unfold role_breakdown role_distribution
    rw [parsedFacts_roles]
  · unfold recent_reports
    rw [parsedFacts_filter]
  · intro f hf
    exact mem_keys_value_counts.mpr (List.mem_map_of_mem _ hf)
  · intro p hp
    exact (mem_value_counts hp).1

/-- C2, witness for the amended claim at a concrete input with one
unparsable-date fact and one dated fact. -/
theorem c2_null_date_handling_witness :
    role_breakdown factsMixedDate
      = role_distribution (factsMixedDate.filter fun f => (to_datetime f.date).isSome)
    ∧ roleDesc (some "1") ∈ (role_distribution factsMixedDate).map Prod.fst := by
  refine ⟨(c2_null_date_handling factsMixedDate).1, ?_⟩
  exact (c2_null_date_handling factsMixedDate).2.2.1 ⟨some "20230145", "A", some "1"⟩
    (by decide)

/-- C4, counterexample: the claim says a 404 response yields a valid empty
result in either mode, but `load_events` has no 404 special case — its
`raise_for_status()` raises, modelled as a transport error. -/
theorem c4_recent_mode_404_raises :
    load_events resp404 = Except.error 404 := rfl

/-- C4, amended: only the search loader converts 404 into an empty result;
the recent-mode loader propagates 404 as a transport error. -/
theorem c4_not_found (q : String) (resp : HttpResponse) (h : resp.status = 404) :
    load_search_events q resp = Except.ok []
    ∧ load_events resp = Except.error 404 := by
  constructor
  · simp [load_search_events, h]
  · simp [load_events, h]

/-- C4, witness for the amended claim at the spec's scenario query. -/
theorem c4_not_found_witness :
    load_search_events "NONEXISTENTDRUG" resp404 = Except.ok []
    ∧ load_events resp404 = Except.error 404 :=
  c4_not_found "NONEXISTENTDRUG" resp404 (by decide)

/-- C6: role mapping is total — every fact's role label is one of the four
categories; codes 1, 2, 3 map to their fixed labels; any other or missing
code maps to Unknown; and mapping never drops a fact (the mapped column has
one label per fact). -/
theorem c6_role_mapping_total (r : Option String) (facts : List Fact) :
    (roleDesc r = "Primary suspect" ∨ roleDesc r = "Secondary suspect"
      ∨ roleDesc r = "Concomitant" ∨ roleDesc r = "Unknown")
    ∧ roleDesc (some "1") = "Primary suspect"
    ∧ roleDesc (some "2") = "Secondary suspect"
    ∧ roleDesc (some "3") = "Concomitant"
    ∧ (r ≠ some "1" → r ≠ some "2" → r ≠ some "3" → roleDesc r = "Unknown")
    ∧ (facts.map fun f => roleDesc f.role).length = facts.length := by
  refine ⟨?_, by decide, by decide, by decide, ?_, List.length_map _ _⟩
  · rcases r with _ | s
    · right; right; right; decide
    · by_cases h1 : s = "1"
      · subst h1; left; decide
      · by_cases h2 : s = "2"
        · subst h2; right; left; decide
        · by_cases h3 : s = "3"
          · subst h3; right; right; left; decide
          · right; right; right
            exact roleDesc_unmapped h1 h2 h3
  · intro h1 h2 h3
    rcases r with _ | s
    · decide
    · refine roleDesc_unmapped ?_ ?_ ?_
      · exact fun e => h1 (congrArg some e)
      · exact fun e => h2 (congrArg some e)
      · exact fun e => h3 (congrArg some e)

/-- C6, witness: the unmapped code 7 maps to Unknown, via the theorem at a
concrete input. -/
theorem c6_role_mapping_total_witness :
    roleDesc (some "7") = "Unknown" :=
  (c6_role_mapping_total (some "7") []).2.2.2.2.1
    (by decide) (by decide) (by decide)

/-- C7: the memoization protocol of the cached loaders — a second call with
an identical key returns the same stored value and cache without running
the (possibly different) computation, and a key present in the cache stays
present after any further call. -/
theorem c7_cache_idempotent {κ α : Type} [BEq κ] [LawfulBEq κ] (c : Cache κ α)
    (k : κ) (f g : Unit → α) (k1 : κ) (h : (c.entries.lookup k1).isSome) :
    getOrCompute (getOrCompute c k f).2.1 k g
      = ((getOrCompute c k f).1, (getOrCompute c k f).2.1, false)
    ∧ ((getOrCompute c k f).2.1.entries.lookup k1).isSome := by
  unfold getOrCompute
  cases hl : c.entries.lookup k with
  | some v => simp [hl, h]
  | none =>
    have hk : ((k, f ()) :: c.entries).lookup k = some (f ()) := by
      simp [List.lookup]
    have hk1 : (((k, f ()) :: c.entries).lookup k1).isSome := by
      rw [List.lookup]
      cases hb : k1 == k
      · simpa using h
      · simp
    simp [hl, hk, hk1]

/-- C7, witness: a concrete cache holding key 1; computing key 2 twice with
two different computations returns the first result both times, leaves the
cache unchanged on the second call, reports that the second computation did
not run, and key 1 is still present. -/
theorem c7_cache_idempotent_witness :
    getOrCompute (getOrCompute cacheOne 2 computeB).2.1 2 computeC
      = ((getOrCompute cacheOne 2 computeB).1, (getOrCompute cacheOne 2 computeB).2.1, false)
    ∧ ((getOrCompute cacheOne 2 computeB).2.1.entries.lookup 1).isSome :=
  c7_cache_idempotent cacheOne 2 computeB computeC 1 (by decide)

/-- C8: the role distribution reports exactly the role categories occurring
in the fact set — a label appears among its keys iff some fact maps to it,
and no returned row has a zero count. -/
theorem c8_role_distribution_support (facts : List Fact) (r : String) :
    (r ∈ (role_distribution facts).map Prod.fst ↔ ∃ f ∈ facts, roleDesc f.role = r)
    ∧ ∀ p ∈ role_distribution facts, 0 < p.2 := by
  constructor
  · exact mem_keys_value_counts.trans (by simp [List.mem_map])
  · intro p hp
    obtain ⟨hc, hm⟩ := mem_value_counts hp
    rw [hc]
    exact List.count_pos_iff.mpr hm

/-- C8, witness: the spec's scenario — facts with role codes 1 and 3 only;
Primary suspect occurs among the keys, and a returned row has a positive
count. -/
theorem c8_role_distribution_support_witness :
    ("Primary suspect" ∈ (role_distribution factsRoles13).map Prod.fst)
    ∧ 0 < (("Primary suspect", 1) : String × Nat).2 := by
  constructor
  · exact (c8_role_distribution_support factsRoles13 "Primary suspect").1.mpr
      ⟨⟨none, "X", some "1"⟩, by decide, by decide⟩
  · exact (c8_role_distribution_support factsRoles13 "Primary suspect").2
      ("Primary suspect", 1) (by decide)

/-- C10: zero raw events normalize to a DataFrame with no rows and no
columns at all, and the Top Drugs page treats emptiness or a missing drug
column as the no-data case, returning the warning without touching
`df["drug"]`. -/
theorem c10_no_data_guard (df : Frame)
    (h : df.data = [] ∨ "drug" ∉ df.columns) :
    load_events ⟨200, []⟩ = Except.ok []
    ∧ load_events_frame [] = ⟨[], []⟩
    ∧ page_top_drugs (load_events_frame []) = TopView.warning
    ∧ page_top_drugs df = TopView.warning := by
  refine ⟨rfl, rfl, rfl, ?_⟩
  unfold page_top_drugs
  rcases h with h | h
  · simp [h]
  · simp [h]

/-- C10, witness: the guard fires on a non-empty frame lacking the drug
column and on an empty frame with columns. -/
theorem c10_no_data_guard_witness :
    page_top_drugs frameNoDrug = TopView.warning
    ∧ page_top_drugs (Frame.mk ["x"] []) = TopView.warning :=
  ⟨(c10_no_data_guard frameNoDrug (Or.inr (by decide))).2.2.2,
   (c10_no_data_guard ⟨["x"], []⟩ (Or.inl rfl)).2.2.2⟩

/-- C5: the top-10 ranking returns at most 10 entries; every returned count
is the exact number of facts whose stored drug string equals that entry's
drug (case-sensitively); entries are ordered by descending count, and ties
keep first-encountered order in the fact set (smaller first-occurrence
index first). -/
theorem c5_top_drugs_ranking (facts : List Fact) :
    (top_drugs facts 10).length ≤ 10
    ∧ (∀ p ∈ top_drugs facts 10, p.2 = (facts.map Fact.drug).count p.1)
    ∧ ∀ (i j : Nat) (hi : i < (top_drugs facts 10).length)
        (hj : j < (top_drugs facts 10).length), i < j →
        ((top_drugs facts 10).get ⟨j, hj⟩).2 ≤ ((top_drugs facts 10).get ⟨i, hi⟩).2
        ∧ (((top_drugs facts 10).get ⟨i, hi⟩).2 = ((top_drugs facts 10).get ⟨j, hj⟩).2 →
            (facts.map Fact.drug).indexOf ((top_drugs facts 10).get ⟨i, hi⟩).1
              < (facts.map Fact.drug).indexOf ((top_drugs facts 10).get ⟨j, hj⟩).1) := by
  refine ⟨List.length_take_le 10 _,
    fun p hp => (mem_value_counts (List.mem_of_mem_take hp)).1, ?_⟩
  intro i j hi hj hij
  have hp : (top_drugs facts 10).Pairwise fun p q =>
      (q.2 ≤ p.2) ∧ (p.2 = q.2 →
        (facts.map Fact.drug).indexOf p.1 < (facts.map Fact.drug).indexOf q.1) :=
    ((value_counts_sorted (facts.map Fact.drug)).and
      (value_counts_tie (facts.map Fact.drug))).sublist (List.take_sublist 10 _)
  exact List.pairwise_iff_getElem.mp hp i j hi hj hij

/-- C5, witness: a fact set where drugs B (seen first) and A tie at two
occurrences each — the second entry's count is bounded by the first's, and
the tie is broken by first-encountered order. -/
theorem c5_top_drugs_ranking_witness :
    ((top_drugs factsTie 10).get ⟨1, by decide⟩).2
      ≤ ((top_drugs factsTie 10).get ⟨0, by decide⟩).2
    ∧ (factsTie.map Fact.drug).indexOf ((top_drugs factsTie 10).get ⟨0, by decide⟩).1
        < (factsTie.map Fact.drug).indexOf ((top_drugs factsTie 10).get ⟨1, by decide⟩).1 := by
  have h := (c5_top_drugs_ranking factsTie).2.2 0 1 (by decide) (by decide) (by decide)
  exact ⟨h.1, h.2 (by decide)⟩

/-- C9: the recent-reports listing is capped at 20 rows, is sorted by date
in descending order, and every row is the (parsed date, drug, role label)
of a loaded fact. -/
theorem c9_recent_reports_table (facts : List Fact) :
    (recent_reports facts).length ≤ 20
    ∧ (recent_reports facts).Pairwise (fun a b => dateKey b.1 ≤ dateKey a.1)
    ∧ ∀ row ∈ recent_reports facts, ∃ f ∈ facts,
        to_datetime f.date = some row.1 ∧ f.drug = row.2.1
          ∧ roleDesc f.role = row.2.2 := by
  refine ⟨List.length_take_le 20 _, ?_, ?_⟩
  · haveI : IsTotal ParsedFact (fun a b => dateKey b.pdate ≤ dateKey a.pdate) :=
      ⟨fun a b => Nat.le_total (dateKey b.pdate) (dateKey a.pdate)⟩
    haveI : IsTrans ParsedFact (fun a b => dateKey b.pdate ≤ dateKey a.pdate) :=
      ⟨fun _ _ _ h1 h2 => Nat.le_trans h2 h1⟩
    have hs := List.sorted_insertionSort
      (fun a b => dateKey b.pdate ≤ dateKey a.pdate) (parsedFacts facts)
    have hm : (((parsedFacts facts).insertionSort
          fun a b => dateKey b.pdate ≤ dateKey a.pdate).map
            fun p => (p.pdate, p.drug, roleDesc p.role)).Pairwise
          fun a b => dateKey b.1 ≤ dateKey a.1 := by
      rw [List.pairwise_map]
      exact hs
    exact hm.sublist (List.take_sublist 20 _)
  · intro row hrow
    obtain ⟨p, hp, he⟩ := List.mem_map.mp (List.mem_of_mem_take hrow)
    have hp2 : p ∈ parsedFacts facts := (List.perm_insertionSort _ _).subset hp
    obtain ⟨f, hf, hsome⟩ := List.mem_filterMap.mp hp2
    cases hd : to_datetime f.date with
    | none => rw [hd] at hsome; simp at hsome
    | some dt =>
      rw [hd] at hsome
      simp only [Option.map_some'] at hsome
      cases Option.some.inj hsome
      cases he
      exact ⟨f, hf, hd, rfl, rfl⟩

/-- C9, witness: two dated facts; the table has at most 20 rows and its
newest row comes from the fact dated 2023-01-05. -/
theorem c9_recent_reports_table_witness :
    (recent_reports factsTwoDates).length ≤ 20
    ∧ ∃ f ∈ factsTwoDates,
        to_datetime f.date = some (⟨2023, 1, 5⟩ : CalDate) ∧ f.drug = "B"
          ∧ roleDesc f.role = "Unknown" := by
  refine ⟨(c9_recent_reports_table factsTwoDates).1, ?_⟩
  exact (c9_recent_reports_table factsTwoDates).2.2 (⟨2023, 1, 5⟩, "B", "Unknown")
    (by decide)

/-- C3 (modelled from the spec; the source has no trend page): the Daily
Trend keeps exactly the facts matching the target drug case-insensitively
with a non-null date inside the trailing window `[now - days, now]`, groups
survivors by calendar date with exact counts, returns date/count pairs in
ascending date order, and yields an empty result when no facts survive. -/
theorem c3_daily_trend_bounds (facts : List Fact) (target : String)
    (days now : Nat) :
    (daily_trend facts target days now).Pairwise
      (fun a b => dateKey a.1 ≤ dateKey b.1)
    ∧ (∀ p ∈ daily_trend facts target days now,
        p.2 = ((trendSurvivors facts target days now).map ParsedFact.pdate).count p.1
        ∧ p.1 ∈ (trendSurvivors facts target days now).map ParsedFact.pdate)
    ∧ (∀ q ∈ trendSurvivors facts target days now,
        pyLower q.drug = pyLower target
        ∧ now - days ≤ dayNumber q.pdate ∧ dayNumber q.pdate ≤ now
        ∧ ∃ f ∈ facts, to_datetime f.date = some q.pdate ∧ f.drug = q.drug)
    ∧ (trendSurvivors facts target days now = []
        → daily_trend facts target days now = []) := by
  refine ⟨?_, ?_, ?_, ?_⟩
  · haveI : IsTotal (CalDate × Nat) (fun a b => dateKey a.1 ≤ dateKey b.1) :=
      ⟨fun a b => Nat.le_total (dateKey a.1) (dateKey b.1)⟩
    haveI : IsTrans (CalDate × Nat) (fun a b => dateKey a.1 ≤ dateKey b.1) :=
      ⟨fun _ _ _ h1 h2 => Nat.le_trans h1 h2⟩
    exact List.sorted_insertionSort _ _
  · intro p hp
    have hp2 : p ∈ value_counts ((trendSurvivors facts target days now).map
        ParsedFact.pdate) := (List.perm_insertionSort _ _).subset hp
    exact ⟨(mem_value_counts hp2).1, (mem_value_counts hp2).2⟩
  · intro q hq
    obtain ⟨hq1, hq2⟩ := List.mem_filter.mp hq
    simp only [Bool.and_eq_true, decide_eq_true_eq] at hq2
    obtain ⟨f, hf, hsome⟩ := List.mem_filterMap.mp hq1
    refine ⟨hq2.1.1, hq2.1.2, hq2.2, f, hf, ?_⟩
    cases hd : to_datetime f.date with
    | none => rw [hd] at hsome; simp at hsome
    | some dt =>
      rw [hd] at hsome
      simp only [Option.map_some'] at hsome
      rw [← Option.some.inj hsome]
      exact ⟨rfl, rfl⟩
  · intro h
    simp only [daily_trend, h]
    rfl

/-- C3, witness: five concrete facts (two case-variant matches dated
2023-06-01, one match outside the window, one other drug, one null date)
with a 180-day window ending 2023-06-30 — the matching date has exact
count 2 and the output is sorted. -/
theorem c3_daily_trend_bounds_witness :
    (2 : Nat) = ((trendSurvivors factsTrend "Ibuprofen" 180
        (dayNumber ⟨2023, 6, 30⟩)).map ParsedFact.pdate).count ⟨2023, 6, 1⟩
    ∧ (daily_trend factsTrend "Ibuprofen" 180 (dayNumber ⟨2023, 6, 30⟩)).Pairwise
        (fun a b => dateKey a.1 ≤ dateKey b.1) := by
  have h := c3_daily_trend_bounds factsTrend "Ibuprofen" 180 (dayNumber ⟨2023, 6, 30⟩)
  exact ⟨(h.2.1 (⟨2023, 6, 1⟩, 2) (by decide)).1, h.1⟩

end OpenFDA
